import Mathlib

/-!
Verification of the hotpdf spatial text index (src/hotpdf/hotpdf.py).

The definitions below are a shallow embedding of `HotPdf` and the pieces it
calls.  Everything defined from `hotpdf.py` carries a doc comment citing the
source lines.  The collaborators that are not part of the given source
(`MemoryMap`, `Span`, the geometry utilities and the raw search /
adjacency-filter stage) are modelled from the specification document and are
marked `Modelled from the spec:`.

Machine integers of the source are Python ints (arbitrary precision), so they
are embedded as `Int` with no wrap-around.  Python exceptions are embedded as
`Except PdfError`.
-/

/-- A single glyph placement (spec section 3, "Character"): glyph value,
x / y position, and the owning span identifier.  The source's
`HotCharacter.span_id` is `Optional[str]`; the absent case is embedded as the
empty string, matching Python truthiness (`if hot_characters[0].span_id:`
is false for both `None` and `""`). -/
structure HotCharacter where
  value : String
  x : Int
  y : Int
  span_id : String
deriving DecidableEq

/-- Spec section 3, "Span": identifier plus ordered character list. -/
structure Span where
  span_id : String
  characters : List HotCharacter
deriving DecidableEq

/-- Axis-aligned rectangle (spec section 3, "ElementDimension").  The source
class carries a fifth (string) field which is always passed as `""` at the
call sites in `hotpdf.py`; it is dropped here. -/
structure ElementDimension where
  x0 : Int
  y0 : Int
  x1 : Int
  y1 : Int
deriving DecidableEq

lemma ElementDimension.eqOfParts {a b : ElementDimension} (h0 : a.x0 = b.x0)
    (h1 : a.y0 = b.y0) (h2 : a.x1 = b.x1) (h3 : a.y1 = b.y1) : a = b := by
  cases a; cases b; simp_all

/-- `leadsWith n h` is true when the character list `n` is an initial segment
of `h` (helper for the substring test). -/
def leadsWith : List Char → List Char → Bool
  | [], _ => true
  | _ :: _, [] => false
  | a :: as, b :: bs => a == b && leadsWith as bs

/-- `occursIn n h` is true when `n` occurs contiguously inside `h`. -/
def occursIn (needle : List Char) : List Char → Bool
  | [] => needle.isEmpty
  | b :: bs => leadsWith needle (b :: bs) || occursIn needle bs

/-- Python's `needle in hay` substring test on strings. -/
def strContains (hay needle : String) : Bool :=
  occursIn needle.data hay.data

/-- The key used by `sorted(chars_to_append, key=lambda ch: (ch.x, ch.y))`
(hotpdf.py line 184): lexicographic order on `(x, y)`. -/
def leXY (a b : HotCharacter) : Prop :=
  a.x < b.x ∨ (a.x = b.x ∧ a.y ≤ b.y)

instance : DecidableRel leXY := fun a b => by
  unfold leXY; exact inferInstance

instance : IsTotal HotCharacter leXY := by
  constructor
  intro a b
  rcases lt_trichotomy a.x b.x with h | h | h
  · exact Or.inl (Or.inl h)
  · rcases le_total a.y b.y with hy | hy
    · exact Or.inl (Or.inr ⟨h, hy⟩)
    · exact Or.inr (Or.inr ⟨h.symm, hy⟩)
  · exact Or.inr (Or.inl h)

instance : IsTrans HotCharacter leXY := by
  constructor
  intro a b c hab hbc
  rcases hab with h | ⟨he, hy⟩
  · rcases hbc with h' | ⟨he', _⟩
    · exact Or.inl (h.trans h')
    · exact Or.inl (he' ▸ h)
  · rcases hbc with h' | ⟨he', hy'⟩
    · exact Or.inl (he ▸ h')
    · exact Or.inr ⟨he.trans he', hy.trans hy'⟩

/-- Reading order used by bounding-box extraction (spec section 4.3):
ascending `y`, then ascending `x`. -/
def leYX (a b : HotCharacter) : Prop :=
  a.y < b.y ∨ (a.y = b.y ∧ a.x ≤ b.x)

instance : DecidableRel leYX := fun a b => by
  unfold leYX; exact inferInstance

instance : IsTotal HotCharacter leYX := by
  constructor
  intro a b
  rcases lt_trichotomy a.y b.y with h | h | h
  · exact Or.inl (Or.inl h)
  · rcases le_total a.x b.x with hx | hx
    · exact Or.inl (Or.inr ⟨h, hx⟩)
    · exact Or.inr (Or.inr ⟨h.symm, hx⟩)
  · exact Or.inr (Or.inl h)

instance : IsTrans HotCharacter leYX := by
  constructor
  intro a b c hab hbc
  rcases hab with h | ⟨he, hx⟩
  · rcases hbc with h' | ⟨he', _⟩
    · exact Or.inl (h.trans h')
    · exact Or.inl (he' ▸ h)
  · rcases hbc with h' | ⟨he', hx'⟩
    · exact Or.inl (he ▸ h')
    · exact Or.inr ⟨he.trans he', hx.trans hx'⟩

/-- One step of the bounding-box fold: grow a rectangle to cover one more
character. -/
def extendDim (d : ElementDimension) (ch : HotCharacter) : ElementDimension :=
  ⟨min d.x0 ch.x, min d.y0 ch.y, max d.x1 ch.x, max d.y1 ch.y⟩

/-- Modelled from the spec: `boundingBox` / `get_element_dimension`
(`hotpdf.utils`, not under src/) — `x0`/`y0` are the minimum `x`/`y` and
`x1`/`y1` the maximum `x`/`y` over the characters (spec section 4.1).  The
spec makes the empty case an error; callers guarantee non-emptiness, and the
empty case here returns the degenerate rectangle `⟨0, 0, 0, 0⟩`. -/
def get_element_dimension : List HotCharacter → ElementDimension
  | [] => ⟨0, 0, 0, 0⟩
  | c :: cs => cs.foldl extendDim ⟨c.x, c.y, c.x, c.y⟩

/-- Modelled from the spec: `intersect` (`hotpdf.utils`, not under src/) —
open-interval axis-aligned overlap test (spec section 4.1). -/
def intersect (a b : ElementDimension) : Bool :=
  decide (a.x0 < b.x1) && decide (b.x0 < a.x1) &&
  decide (a.y0 < b.y1) && decide (b.y0 < a.y1)

/-- Modelled from the spec: the tolerance below which two raw hits count as
the same visual occurrence ("separated by less than the extraction
tolerance", spec section 4.4 step 1; the default extraction tolerance is 4). -/
def adjacencyTol : Int := 4

/-- Modelled from the spec: separation of two rectangles is below `tol` on
both axes. -/
def sepLt (tol : Int) (a b : ElementDimension) : Bool :=
  decide (max (b.x0 - a.x1) (a.x0 - b.x1) < tol) &&
  decide (max (b.y0 - a.y1) (a.y0 - b.y1) < tol)

/-- Modelled from the spec: two raw hits are "the same occurrence" iff their
bounding boxes intersect or are separated by less than the tolerance
(spec section 4.4 step 1). -/
def sameOccurrence (tol : Int) (a b : ElementDimension) : Bool :=
  intersect a b || sepLt tol a b

/-- Width of a rectangle, used to keep "the widest span of characters" when
merging adjacent raw hits. -/
def dimWidth (d : ElementDimension) : Int := d.x1 - d.x0

/-- Modelled from the spec: merge one raw hit into the accumulated occurrence
list — replace the first adjacent occurrence by the wider of the two,
otherwise append. -/
def mergeHitInto (hit : List HotCharacter) :
    List (List HotCharacter) → List (List HotCharacter)
  | [] => [hit]
  | occ :: rest =>
    if sameOccurrence adjacencyTol (get_element_dimension occ) (get_element_dimension hit) then
      (if dimWidth (get_element_dimension hit) ≤ dimWidth (get_element_dimension occ)
        then occ else hit) :: rest
    else occ :: mergeHitInto hit rest

/-- Modelled from the spec: `filter_adjacent_coords` (`hotpdf.utils`, not
under src/) — geometrically adjacent/overlapping raw hits are merged into one
occurrence, keeping the widest (spec section 4.4 step 1). -/
def filter_adjacent_coords (hits : List (List HotCharacter)) :
    List (List HotCharacter) :=
  hits.foldl (fun acc h => mergeHitInto h acc) []

/-- Shortest run of characters starting here whose concatenated glyph values
equal the query (`acc` holds the glyphs consumed so far). -/
def glyphsMatch (query : List Char) : List HotCharacter → List Char → Option (List HotCharacter)
  | [], acc => if acc == query then some [] else none
  | c :: cs, acc =>
    if acc == query then some []
    else (glyphsMatch query cs (acc ++ c.value.data)).map (fun l => c :: l)

/-- All runs found by scanning each start position in rendering order. -/
def findHits (query : List Char) : List HotCharacter → List (List HotCharacter)
  | [] => []
  | c :: cs =>
    (match glyphsMatch query (c :: cs) [] with
      | some hit => [hit]
      | none => []) ++ findHits query cs

/-- Modelled from the spec: the per-page index (spec section 3, "PageIndex" —
`hotpdf.memory_map.MemoryMap`, not under src/): page extents, all characters
in rendering order, the span map in insertion order, and the configured
line-height tolerance of the text renderer. -/
structure MemoryMap where
  width : Int
  height : Int
  line_tolerance : Int
  chars : List HotCharacter
  span_map : List Span
deriving DecidableEq

/-- Default page used with `List.getD`; callers index only after the page
number check, so it is never observed. -/
def mmDefault : MemoryMap := ⟨0, 0, 0, [], []⟩

/-- Lookup in the span map by identifier (spec section 4.3, `span(id)`). -/
def lookupSpan : List Span → String → Option Span
  | [], _ => none
  | s :: ss, sid => if s.span_id = sid then some s else lookupSpan ss sid

/-- Modelled from the spec: `Span.to_text` — concatenation of the member
characters' glyphs in stored order (spec section 4.2). -/
def Span.to_text (s : Span) : String :=
  String.join (s.characters.map (fun c => c.value))

/-- Alias for the character-list bounding box, usable inside namespaces where
the name `get_element_dimension` is shadowed. -/
def gedChars : List HotCharacter → ElementDimension :=
  get_element_dimension

/-- Modelled from the spec: a span's bounding box delegates to the geometry
utilities over its characters (spec section 4.2). -/
def Span.get_element_dimension (s : Span) : ElementDimension :=
  gedChars s.characters

/-- Glyph emission for the selected characters, sorted ascending `(y, x)`:
a line break is inserted whenever the next character's `y` differs from the
previous one by more than the line-height tolerance (spec section 4.3). -/
def renderFrom (tol : Int) (prevY : Int) : List HotCharacter → List Char
  | [] => []
  | c :: cs =>
    (if tol < c.y - prevY then '\n' :: c.value.data else c.value.data) ++
      renderFrom tol c.y cs

/-- Modelled from the spec: `MemoryMap.extract_text_from_bbox` (not under
src/) — select every character whose `(x, y)` lies in the rectangle
(inclusive on all edges: a character exactly on `x1`/`y1` is included), order
by ascending `y` then ascending `x`, concatenate glyphs with line breaks at
`y` jumps; no match gives the empty string (spec section 4.3). -/
def MemoryMap.extract_text_from_bbox (mm : MemoryMap) (x0 x1 y0 y1 : Int) : String :=
  let sel := mm.chars.filter
    (fun c => decide (x0 ≤ c.x ∧ c.x ≤ x1 ∧ y0 ≤ c.y ∧ c.y ≤ y1))
  match List.insertionSort leYX sel with
  | [] => ""
  | c :: cs => String.mk (c.value.data ++ renderFrom mm.line_tolerance c.y cs)

/-- Modelled from the spec: `MemoryMap.find_text` (not under src/) — the raw
substring scan: every run of consecutively rendered characters whose
concatenated glyphs equal the query, found from every start position in
rendering order; deliberately permissive, uniqueness is the post-processor's
job (spec section 4.3, `rawFindText`). -/
def MemoryMap.find_text (mm : MemoryMap) (query : String) : List (List HotCharacter) :=
  findHits query.data mm.chars

/-- The error taxonomy of the query surface (spec section 7); the source
raises `ValueError` with distinct messages, `FileNotFoundError`, and so on. -/
inductive PdfError where
  | invalidCoordinates
  | invalidPageNumber
  | invalidPageRange
deriving DecidableEq

instance {ε α : Type} [DecidableEq ε] [DecidableEq α] : DecidableEq (Except ε α) := fun x y =>
  match x, y with
  | .ok a, .ok b =>
    decidable_of_iff (a = b) ⟨fun h => by rw [h], fun h => Except.ok.inj h⟩
  | .error a, .error b =>
    decidable_of_iff (a = b) ⟨fun h => by rw [h], fun h => Except.error.inj h⟩
  | .ok _, .error _ => isFalse (fun h => Except.noConfusion h)
  | .error _, .ok _ => isFalse (fun h => Except.noConfusion h)

/-- The document object (hotpdf.py lines 15-45): the ordered pages and the
extraction tolerance.  `__init__` without a `pdf_file` leaves `pages` empty. -/
structure HotPdf where
  pages : List MemoryMap
  extraction_tolerance : Int
deriving DecidableEq

/-- A `HotPdf()` constructed without a `pdf_file` argument
(hotpdf.py lines 42-45): no pages, default tolerance 4. -/
def emptyHotPdf : HotPdf := ⟨[], 4⟩

/-- `HotPdf.__check_coordinates` (hotpdf.py lines 51-53). -/
def check_coordinates (x0 y0 x1 y1 : Int) : Except PdfError Unit :=
  if x0 < 0 ∨ x1 < 0 ∨ y0 < 0 ∨ y1 < 0 then .error .invalidCoordinates
  else .ok ()

/-- `HotPdf.__check_page_number` (hotpdf.py lines 55-57). -/
def HotPdf.check_page_number (h : HotPdf) (page : Int) : Except PdfError Unit :=
  if page < 0 ∨ (h.pages.length : Int) ≤ page then .error .invalidPageNumber
  else .ok ()

/-- `HotPdf.__check_page_range` (hotpdf.py lines 59-61). -/
def check_page_range (first_page last_page : Int) : Except PdfError Unit :=
  if first_page > last_page ∨ first_page < 0 ∨ last_page < 0 then
    .error .invalidPageRange
  else .ok ()

/-- `HotPdf.extract_text` (hotpdf.py lines 216-250): coordinate check, page
check, then bounding-box extraction with the trailing edge padded by the
extraction tolerance.  `math.floor`/`math.ceil` are the identity on the `int`
arguments of the source signature. -/
def HotPdf.extract_text (h : HotPdf) (x0 y0 x1 y1 page : Int) : Except PdfError String :=
  match check_coordinates x0 y0 x1 y1 with
  | .error e => .error e
  | .ok _ =>
    match h.check_page_number page with
    | .error e => .error e
    | .ok _ =>
      let page_to_search := h.pages.getD page.toNat mmDefault
      .ok (page_to_search.extract_text_from_bbox x0 (x1 + h.extraction_tolerance) y0 y1)

/-- `HotPdf.extract_page_text` (hotpdf.py lines 252-276): page check, then
bounding-box extraction over the full page extents (no tolerance padding). -/
def HotPdf.extract_page_text (h : HotPdf) (page : Int) : Except PdfError String :=
  match h.check_page_number page with
  | .error e => .error e
  | .ok _ =>
    let page_to_search := h.pages.getD page.toNat mmDefault
    .ok (page_to_search.extract_text_from_bbox 0 page_to_search.width 0 page_to_search.height)

/-- `HotPdf.extract_spans` (hotpdf.py lines 188-214): the spans of the page
whose bounding box intersects the query rectangle, in span-map insertion
order. -/
def HotPdf.extract_spans (h : HotPdf) (x0 y0 x1 y1 page : Int) : Except PdfError (List Span) :=
  match check_coordinates x0 y0 x1 y1 with
  | .error e => .error e
  | .ok _ =>
    match h.check_page_number page with
    | .error e => .error e
    | .ok _ =>
      .ok ((h.pages.getD page.toNat mmDefault).span_map.filter
        (fun sp => intersect ⟨x0, y0, x1, y1⟩ sp.get_element_dimension))

/-- `HotPdf.extract_spans_text` (hotpdf.py lines 278-310): both checks again,
then the concatenation of `extract_spans` results' texts in returned order. -/
def HotPdf.extract_spans_text (h : HotPdf) (x0 y0 x1 y1 page : Int) : Except PdfError String :=
  match check_coordinates x0 y0 x1 y1 with
  | .error e => .error e
  | .ok _ =>
    match h.check_page_number page with
    | .error e => .error e
    | .ok _ =>
      match h.extract_spans x0 y0 x1 y1 page with
      | .error e => .error e
      | .ok spans => .ok (String.join (spans.map Span.to_text))

/-- `HotPdf.__extract_full_text_span` (hotpdf.py lines 94-111): look only at
the FIRST character; when its `span_id` is truthy, return the characters of
the span it names.  The source raises `IndexError` on an empty input and
`KeyError` on a span-map miss (spec: a data-model invariant violation); both
are embedded as `none`, which no claim exercises. -/
def HotPdf.extract_full_text_span (h : HotPdf) (hot_characters : List HotCharacter)
    (page_num : Nat) : Option (List HotCharacter) :=
  match hot_characters with
  | [] => none
  | c :: _ =>
    if c.span_id ≠ "" then
      match lookupSpan (h.pages.getD page_num mmDefault).span_map c.span_id with
      | some sp => some sp.characters
      | none => none
    else none

/-- One iteration of the occurrence loop of `HotPdf.find_text`
(hotpdf.py lines 155-185): bounding box, re-extraction, validation test, span
promotion, the (dead) span dedup check, optional character sort.  Result
`some occ` is appended to the page result, `none` means the occurrence is
skipped.  `seen_span_ids` is re-created empty on every iteration (source line
165 sits inside the loop body), so the membership test below never succeeds
and the subsequent `seen_span_ids.extend(...)` of the source writes to a
variable that is never read; the extend is therefore not represented. -/
def processOccurrence (h : HotPdf) (page_num : Nat) (query : String)
    (validate take_span sort : Bool) (hot_characters : List HotCharacter) :
    Except PdfError (Option (List HotCharacter)) :=
  let element_dimension := get_element_dimension hot_characters
  match h.extract_text element_dimension.x0 element_dimension.y0
      element_dimension.x1 element_dimension.y1 (Int.ofNat page_num) with
  | .error e => .error e
  | .ok text =>
    if strContains text query || !validate then
      let seen_span_ids : List String := []
      let full_span_dimension_hot_characters :=
        if take_span then h.extract_full_text_span hot_characters page_num else none
      -- Python: `full if (take_span and full) else hot_characters`; an empty
      -- promoted list is falsy and falls back to the raw occurrence.
      let chars_to_append :=
        match full_span_dimension_hot_characters with
        | some (c :: cs) => c :: cs
        | _ => hot_characters
      match chars_to_append with
      | [] => .ok (some [])   -- the append sits outside the `if chars_to_append:` guard
      | c :: cs =>
        if c.span_id ∈ seen_span_ids then .ok none   -- `continue`
        else .ok (some (if sort then List.insertionSort leXY (c :: cs) else c :: cs))
    else .ok none

/-- The occurrence loop of `HotPdf.find_text` over one page's adjacency-
filtered hits (hotpdf.py lines 152-185), in source order: the first raised
error wins, skipped occurrences leave no trace. -/
def processPage (h : HotPdf) (page_num : Nat) (query : String)
    (validate take_span sort : Bool) :
    List (List HotCharacter) → Except PdfError (List (List HotCharacter))
  | [] => .ok []
  | oc :: ocs =>
    match processOccurrence h page_num query validate take_span sort oc with
    | .error e => .error e
    | .ok res =>
      match processPage h page_num query validate take_span sort ocs with
      | .error e => .error e
      | .ok rest =>
        .ok (match res with
          | some cs => cs :: rest
          | none => rest)

/-- `HotPdf.find_text`'s per-page fan-out (hotpdf.py lines 141-186): for each
queried page number in order, raw search, adjacency filtering, then the
occurrence loop; every queried page appears in the result, possibly with an
empty list. -/
def searchPages (h : HotPdf) (query : String) (validate take_span sort : Bool) :
    List Nat → Except PdfError (List (Nat × List (List HotCharacter)))
  | [] => .ok []
  | n :: ns =>
    match processPage h n query validate take_span sort
        (filter_adjacent_coords ((h.pages.getD n mmDefault).find_text query)) with
    | .error e => .error e
    | .ok out =>
      match searchPages h query validate take_span sort ns with
      | .error e => .error e
      | .ok rest => .ok ((n, out) :: rest)

/-- The page-number check loop of `HotPdf.find_text`
(hotpdf.py lines 138-139). -/
def checkPages (h : HotPdf) : List Int → Except PdfError Unit
  | [] => .ok ()
  | p :: ps =>
    match h.check_page_number p with
    | .error e => .error e
    | .ok _ => checkPages h ps

/-- First-occurrence deduplication of the requested page numbers: the dict
comprehension `{i: self.pages[i] for i in pages}` keeps one key per page
number, in first-insertion order. -/
def dedupPagesAux (seen : List Nat) : List Nat → List Nat
  | [] => []
  | p :: ps =>
    if p ∈ seen then dedupPagesAux seen ps
    else p :: dedupPagesAux (seen ++ [p]) ps

/-- Keys of the `query_pages` dict (hotpdf.py lines 141-143). -/
def dedupPages (ps : List Nat) : List Nat := dedupPagesAux [] ps

/-- `HotPdf.find_text` (hotpdf.py lines 113-186).  `pages=None` of the source
becomes `[]` immediately (line 136), so the embedding takes the list
directly.  Page numbers are validated up front; an empty `pages` list selects
every loaded page.  The result maps each queried page number to its
occurrence list. -/
def HotPdf.find_text (h : HotPdf) (query : String) (pages : List Int)
    (validate take_span sort : Bool) :
    Except PdfError (List (Nat × List (List HotCharacter))) :=
  match checkPages h pages with
  | .error e => .error e
  | .ok _ =>
    let keys :=
      if pages.isEmpty then List.range h.pages.length
      else dedupPages (pages.map Int.toNat)
    searchPages h query validate take_span sort keys

/-- Character `a` of the C1 sample page (two "ab" hits inside one span). -/
def aC1 : HotCharacter := ⟨"a", 0, 0, "s1"⟩

/-- Character `b` of the C1 sample page. -/
def bC1 : HotCharacter := ⟨"b", 1, 0, "s1"⟩

/-- Second `a` of the C1 sample page, 9 units to the right. -/
def a2C1 : HotCharacter := ⟨"a", 10, 0, "s1"⟩

/-- Second `b` of the C1 sample page. -/
def b2C1 : HotCharacter := ⟨"b", 11, 0, "s1"⟩

/-- The single span of the C1 sample page: the line "abab". -/
def spanC1 : Span := ⟨"s1", [aC1, bC1, a2C1, b2C1]⟩

/-- The C1 sample page. -/
def mmC1 : MemoryMap := ⟨40, 40, 5, [aC1, bC1, a2C1, b2C1], [spanC1]⟩

/-- A document whose one page holds the span "abab": the query "ab" has two
occurrences that both promote to span `s1`. -/
def pdfC1 : HotPdf := ⟨[mmC1], 4⟩

/-- First `a` of the C2 sample page (right end of the upper line). -/
def aC2 : HotCharacter := ⟨"a", 50, 0, "s1"⟩

/-- First `b` of the C2 sample page. -/
def bC2 : HotCharacter := ⟨"b", 51, 0, "s1"⟩

/-- Second `a` of the C2 sample page (left start of the lower line). -/
def cC2 : HotCharacter := ⟨"a", 0, 20, "s2"⟩

/-- Second `b` of the C2 sample page. -/
def dC2 : HotCharacter := ⟨"b", 1, 20, "s2"⟩

/-- The C2 sample page: "ab" at x=50 on the first line is rendered before
"ab" at x=0 on the second line. -/
def mmC2 : MemoryMap :=
  ⟨60, 30, 5, [aC2, bC2, cC2, dC2], [⟨"s1", [aC2, bC2]⟩, ⟨"s2", [cC2, dC2]⟩]⟩

/-- Document for the C2 counterexample. -/
def pdfC2 : HotPdf := ⟨[mmC2], 4⟩

/-- Character `a` of the C3 counterexample page, owned by span `s1`. -/
def aC3 : HotCharacter := ⟨"a", 0, 0, "s1"⟩

/-- Character `b` of the C3 counterexample page, owned by span `s2`: the raw
occurrence [a, b] spans two distinct span identifiers. -/
def bC3 : HotCharacter := ⟨"b", 5, 0, "s2"⟩

/-- Character `c` of the C3 counterexample page, the other member of `s1`. -/
def cC3 : HotCharacter := ⟨"c", 1, 0, "s1"⟩

/-- The C3 counterexample page. -/
def mmC3 : MemoryMap :=
  ⟨40, 40, 5, [aC3, bC3, cC3], [⟨"s1", [aC3, cC3]⟩, ⟨"s2", [bC3]⟩]⟩

/-- Document for the C3 counterexample. -/
def pdfC3 : HotPdf := ⟨[mmC3], 4⟩

/-- Character `a` of the C3 witness page. -/
def aW3 : HotCharacter := ⟨"a", 0, 0, "s1"⟩

/-- Character `b` of the C3 witness page (different span than `a`). -/
def bW3 : HotCharacter := ⟨"b", 1, 0, "s2"⟩

/-- Character `d` of the C3 witness page. -/
def dW3 : HotCharacter := ⟨"d", 2, 0, "s2"⟩

/-- Character `e` of the C3 witness page, second member of span `s1`. -/
def eW3 : HotCharacter := ⟨"e", 3, 0, "s1"⟩

/-- The C3 witness page. -/
def mmW3 : MemoryMap :=
  ⟨40, 40, 5, [aW3, bW3, dW3, eW3], [⟨"s1", [aW3, eW3]⟩, ⟨"s2", [bW3, dW3]⟩]⟩

/-- Document for the C3 witness. -/
def pdfW3 : HotPdf := ⟨[mmW3], 4⟩

/-- The C5 counterexample page: a single character sits just beyond the page
width, inside the tolerance-padded trailing edge. -/
def mmC5 : MemoryMap := ⟨10, 10, 5, [⟨"q", 11, 5, ""⟩], []⟩

/-- Document for the C5 counterexample. -/
def pdfC5 : HotPdf := ⟨[mmC5], 4⟩

/-- The C5 witness page: every character lies within the page extents. -/
def mmW5 : MemoryMap := ⟨10, 10, 5, [⟨"q", 3, 4, ""⟩], []⟩

/-- Document for the C5 witness. -/
def pdfW5 : HotPdf := ⟨[mmW5], 4⟩

/-- Character `a` of the C6 counterexample page (span `s1`). -/
def aC6 : HotCharacter := ⟨"a", 0, 10, "s1"⟩

/-- Character `b` of the C6 counterexample page: 2 y-units below `a`, still
within the line tolerance. -/
def bC6 : HotCharacter := ⟨"b", 1, 12, "s1"⟩

/-- Character `z` of the C6 counterexample page: outside the raw occurrence's
padded box, inside the promoted span's box, at an intermediate `y`. -/
def zC6 : HotCharacter := ⟨"z", 20, 11, ""⟩

/-- Character `w` of the C6 counterexample page: the third member of `s1`
that stretches the promoted bounding box over `z`. -/
def wC6 : HotCharacter := ⟨"w", 25, 11, "s1"⟩

/-- The C6 counterexample page. -/
def mmC6 : MemoryMap :=
  ⟨40, 40, 5, [aC6, bC6, zC6, wC6], [⟨"s1", [aC6, bC6, wC6]⟩]⟩

/-- Document for the C6 counterexample. -/
def pdfC6 : HotPdf := ⟨[mmC6], 4⟩

/-- Character `a` of the C6 witness page. -/
def aW6 : HotCharacter := ⟨"a", 0, 0, ""⟩

/-- Character `b` of the C6 witness page. -/
def bW6 : HotCharacter := ⟨"b", 1, 0, ""⟩

/-- The C6 witness page. -/
def mmW6 : MemoryMap := ⟨10, 10, 5, [aW6, bW6], []⟩

/-- Document for the C6 witness. -/
def pdfW6 : HotPdf := ⟨[mmW6], 4⟩

/-- The single span of the C9 witness page: the text "hi". -/
def spanC9 : Span := ⟨"s1", [⟨"h", 1, 1, "s1"⟩, ⟨"i", 2, 1, "s1"⟩]⟩

/-- The C9 witness page. -/
def mmC9 : MemoryMap := ⟨10, 10, 5, [⟨"h", 1, 1, "s1"⟩, ⟨"i", 2, 1, "s1"⟩], [spanC9]⟩

/-- Document for the C9 witness. -/
def pdfC9 : HotPdf := ⟨[mmC9], 4⟩

lemma maxRightComm (a b c : Int) : max (max a b) c = max (max a c) b := by
  rw [max_assoc, max_comm b c, ← max_assoc]

lemma foldl_extendDim_x0 (l : List HotCharacter) :
    ∀ d : ElementDimension,
      (l.foldl extendDim d).x0 = (l.map (fun ch => ch.x)).foldl min d.x0 := by
  induction l with
  | nil => intro d; rfl
  | cons c cs ih =>
    intro d
    rw [List.foldl_cons, List.map_cons, List.foldl_cons, ih]
    rfl

lemma foldl_extendDim_y0 (l : List HotCharacter) :
    ∀ d : ElementDimension,
      (l.foldl extendDim d).y0 = (l.map (fun ch => ch.y)).foldl min d.y0 := by
  induction l with
  | nil => intro d; rfl
  | cons c cs ih =>
    intro d
    rw [List.foldl_cons, List.map_cons, List.foldl_cons, ih]
    rfl

lemma foldl_extendDim_x1 (l : List HotCharacter) :
    ∀ d : ElementDimension,
      (l.foldl extendDim d).x1 = (l.map (fun ch => ch.x)).foldl max d.x1 := by
  induction l with
  | nil => intro d; rfl
  | cons c cs ih =>
    intro d
    rw [List.foldl_cons, List.map_cons, List.foldl_cons, ih]
    rfl

lemma foldl_extendDim_y1 (l : List HotCharacter) :
    ∀ d : ElementDimension,
      (l.foldl extendDim d).y1 = (l.map (fun ch => ch.y)).foldl max d.y1 := by
  induction l with
  | nil => intro d; rfl
  | cons c cs ih =>
    intro d
    rw [List.foldl_cons, List.map_cons, List.foldl_cons, ih]
    rfl

lemma perm_foldl_min {l₁ l₂ : List Int} (p : l₁.Perm l₂) :
    ∀ x : Int, l₁.foldl min x = l₂.foldl min x := by
  induction p with
  | nil => intro x; rfl
  | cons a _ ih => intro x; rw [List.foldl_cons, List.foldl_cons, ih]
  | swap a b l =>
    intro x
    rw [List.foldl_cons, List.foldl_cons, List.foldl_cons, List.foldl_cons,
      min_right_comm]
  | trans _ _ ih₁ ih₂ => intro x; rw [ih₁, ih₂]

lemma perm_foldl_max {l₁ l₂ : List Int} (p : l₁.Perm l₂) :
    ∀ x : Int, l₁.foldl max x = l₂.foldl max x := by
  induction p with
  | nil => intro x; rfl
  | cons a _ ih => intro x; rw [List.foldl_cons, List.foldl_cons, ih]
  | swap a b l =>
    intro x
    rw [List.foldl_cons, List.foldl_cons, List.foldl_cons, List.foldl_cons,
      maxRightComm]
  | trans _ _ ih₁ ih₂ => intro x; rw [ih₁, ih₂]

lemma foldl_min_le_init (l : List Int) : ∀ x : Int, l.foldl min x ≤ x := by
  induction l with
  | nil => intro x; exact le_refl x
  | cons c cs ih => intro x; exact le_trans (ih (min x c)) (min_le_left x c)

lemma foldl_max_ge_init (l : List Int) : ∀ x : Int, x ≤ l.foldl max x := by
  induction l with
  | nil => intro x; exact le_refl x
  | cons c cs ih => intro x; exact le_trans (le_max_left x c) (ih (max x c))

lemma foldl_min_le_mem {a : Int} : ∀ {l : List Int}, a ∈ l → ∀ x : Int, l.foldl min x ≤ a
  | c :: cs, ha, x => by
    rcases List.mem_cons.mp ha with h | h
    · subst h
      exact le_trans (foldl_min_le_init cs (min x a)) (min_le_right x a)
    · rw [List.foldl_cons]
      exact foldl_min_le_mem h (min x c)

lemma foldl_max_ge_mem {a : Int} : ∀ {l : List Int}, a ∈ l → ∀ x : Int, a ≤ l.foldl max x
  | c :: cs, ha, x => by
    rcases List.mem_cons.mp ha with h | h
    · subst h
      exact le_trans (le_max_right x a) (foldl_max_ge_init cs (max x a))
    · rw [List.foldl_cons]
      exact foldl_max_ge_mem h (max x c)

lemma foldl_min_eq_init_or_mem :
    ∀ (l : List Int) (x : Int), l.foldl min x = x ∨ ∃ a ∈ l, l.foldl min x = a
  | [], _ => Or.inl rfl
  | c :: cs, x => by
    rcases foldl_min_eq_init_or_mem cs (min x c) with h | ⟨a, ha, he⟩
    · rcases min_choice x c with hm | hm
      · exact Or.inl (by rw [List.foldl_cons, h, hm])
      · exact Or.inr ⟨c, List.mem_cons_self c cs, by rw [List.foldl_cons, h, hm]⟩
    · exact Or.inr ⟨a, List.mem_cons_of_mem c ha, by rw [List.foldl_cons, he]⟩

lemma foldl_max_eq_init_or_mem :
    ∀ (l : List Int) (x : Int), l.foldl max x = x ∨ ∃ a ∈ l, l.foldl max x = a
  | [], _ => Or.inl rfl
  | c :: cs, x => by
    rcases foldl_max_eq_init_or_mem cs (max x c) with h | ⟨a, ha, he⟩
    · rcases max_choice x c with hm | hm
      · exact Or.inl (by rw [List.foldl_cons, h, hm])
      · exact Or.inr ⟨c, List.mem_cons_self c cs, by rw [List.foldl_cons, h, hm]⟩
    · exact Or.inr ⟨a, List.mem_cons_of_mem c ha, by rw [List.foldl_cons, he]⟩

lemma foldl_min_seed_swap {a b : Int} {l : List Int} (ha : a ∈ l) (hb : b ∈ l) :
    l.foldl min a = l.foldl min b := by
  apply le_antisymm
  · rcases foldl_min_eq_init_or_mem l b with h | ⟨c, hc, he⟩
    · rw [h]; exact foldl_min_le_mem hb a
    · rw [he]; exact foldl_min_le_mem hc a
  · rcases foldl_min_eq_init_or_mem l a with h | ⟨c, hc, he⟩
    · rw [h]; exact foldl_min_le_mem ha b
    · rw [he]; exact foldl_min_le_mem hc b

lemma foldl_max_seed_swap {a b : Int} {l : List Int} (ha : a ∈ l) (hb : b ∈ l) :
    l.foldl max a = l.foldl max b := by
  apply le_antisymm
  · rcases foldl_max_eq_init_or_mem l a with h | ⟨c, hc, he⟩
    · rw [h]; exact foldl_max_ge_mem ha b
    · rw [he]; exact foldl_max_ge_mem hc b
  · rcases foldl_max_eq_init_or_mem l b with h | ⟨c, hc, he⟩
    · rw [h]; exact foldl_max_ge_mem hb a
    · rw [he]; exact foldl_max_ge_mem hc a

lemma ged_x0_eq (c : HotCharacter) (cs : List HotCharacter) :
    (get_element_dimension (c :: cs)).x0 =
      ((c :: cs).map (fun ch => ch.x)).foldl min c.x := by
  show (cs.foldl extendDim ⟨c.x, c.y, c.x, c.y⟩).x0 = _
  rw [foldl_extendDim_x0, List.map_cons, List.foldl_cons, min_self]

lemma ged_y0_eq (c : HotCharacter) (cs : List HotCharacter) :
    (get_element_dimension (c :: cs)).y0 =
      ((c :: cs).map (fun ch => ch.y)).foldl min c.y := by
  show (cs.foldl extendDim ⟨c.x, c.y, c.x, c.y⟩).y0 = _
  rw [foldl_extendDim_y0, List.map_cons, List.foldl_cons, min_self]

lemma ged_x1_eq (c : HotCharacter) (cs : List HotCharacter) :
    (get_element_dimension (c :: cs)).x1 =
      ((c :: cs).map (fun ch => ch.x)).foldl max c.x := by
  show (cs.foldl extendDim ⟨c.x, c.y, c.x, c.y⟩).x1 = _
  rw [foldl_extendDim_x1, List.map_cons, List.foldl_cons, max_self]

lemma ged_y1_eq (c : HotCharacter) (cs : List HotCharacter) :
    (get_element_dimension (c :: cs)).y1 =
      ((c :: cs).map (fun ch => ch.y)).foldl max c.y := by
  show (cs.foldl extendDim ⟨c.x, c.y, c.x, c.y⟩).y1 = _
  rw [foldl_extendDim_y1, List.map_cons, List.foldl_cons, max_self]

/-- The bounding box of a character group depends only on the multiset of
characters: permuting the group leaves `get_element_dimension` unchanged. -/
lemma ged_perm {l₁ l₂ : List HotCharacter} (p : l₁.Perm l₂) :
    get_element_dimension l₁ = get_element_dimension l₂ := by
  cases l₁ with
  | nil =>
    have : l₂ = [] := p.symm.eq_nil
    rw [this]
  | cons c₁ t₁ =>
    cases l₂ with
    | nil => exact absurd p.eq_nil (by simp)
    | cons c₂ t₂ =>
      have h₁x : c₁.x ∈ (c₂ :: t₂).map (fun ch => ch.x) :=
        List.mem_map_of_mem _ (p.subset (List.mem_cons_self c₁ t₁))
      have h₂x : c₂.x ∈ (c₂ :: t₂).map (fun ch => ch.x) :=
        List.mem_map_of_mem _ (List.mem_cons_self c₂ t₂)
      have h₁y : c₁.y ∈ (c₂ :: t₂).map (fun ch => ch.y) :=
        List.mem_map_of_mem _ (p.subset (List.mem_cons_self c₁ t₁))
      have h₂y : c₂.y ∈ (c₂ :: t₂).map (fun ch => ch.y) :=
        List.mem_map_of_mem _ (List.mem_cons_self c₂ t₂)
      have px : ((c₁ :: t₁).map (fun ch => ch.x)).Perm ((c₂ :: t₂).map (fun ch => ch.x)) :=
        p.map _
      have py : ((c₁ :: t₁).map (fun ch => ch.y)).Perm ((c₂ :: t₂).map (fun ch => ch.y)) :=
        p.map _
      apply ElementDimension.eqOfParts
      · rw [ged_x0_eq, ged_x0_eq, perm_foldl_min px]
        exact foldl_min_seed_swap h₁x h₂x
      · rw [ged_y0_eq, ged_y0_eq, perm_foldl_min py]
        exact foldl_min_seed_swap h₁y h₂y
      · rw [ged_x1_eq, ged_x1_eq, perm_foldl_max px]
        exact foldl_max_seed_swap h₁x h₂x
      · rw [ged_y1_eq, ged_y1_eq, perm_foldl_max py]
        exact foldl_max_seed_swap h₁y h₂y

/-- Sorting an occurrence's characters does not change its bounding box. -/
lemma ged_insertionSort (l : List HotCharacter) :
    get_element_dimension (List.insertionSort leXY l) = get_element_dimension l :=
  ged_perm (List.perm_insertionSort leXY l)

/-- An occurrence that survives the loop body with `validate=true` and
`take_span=false` was re-extracted over its raw bounding box, the query was a
substring of that text, and the returned character list is the raw one,
possibly sorted. -/
lemma processOccurrence_validate {h : HotPdf} {n : Nat} {q : String} {s : Bool}
    {raw oc : List HotCharacter}
    (hv : processOccurrence h n q true false s raw = .ok (some oc)) :
    (∃ text,
        h.extract_text (get_element_dimension raw).x0 (get_element_dimension raw).y0
          (get_element_dimension raw).x1 (get_element_dimension raw).y1 (Int.ofNat n) =
          .ok text ∧
        strContains text q = true) ∧
    (oc = raw ∨ oc = List.insertionSort leXY raw) := by
  unfold processOccurrence at hv
  simp only [] at hv
  split at hv
  · exact absurd hv (by simp)
  · rename_i text heq
    cases hcb : strContains text q with
    | false => simp [hcb] at hv
    | true =>
      simp only [hcb, Bool.not_true, Bool.or_false, if_true] at hv
      simp only [if_neg (by simp : ¬False), Bool.false_eq_true, ite_false] at hv
      refine ⟨⟨text, heq, hcb⟩, ?_⟩
      cases raw with
      | nil =>
        simp at hv
        exact Or.inl hv
      | cons c cs =>
        simp at hv
        cases s with
        | true => exact Or.inr (by simp at hv; exact hv.symm)
        | false => exact Or.inl (by simp at hv; exact hv.symm)

/-- With `sort=true`, every occurrence the loop body emits has its characters
in non-decreasing `(x, y)` order. -/
lemma processOccurrence_sorted {h : HotPdf} {n : Nat} {q : String} {v t : Bool}
    {raw oc : List HotCharacter}
    (hv : processOccurrence h n q v t true raw = .ok (some oc)) :
    List.Sorted leXY oc := by
  unfold processOccurrence at hv
  simp only [] at hv
  split at hv
  · exact absurd hv (by simp)
  · split at hv
    · split at hv
      · simp at hv
        rw [hv]
        exact List.sorted_nil
      · split at hv
        · exact absurd hv (by simp)
        · simp at hv
          rw [← hv]
          exact (List.sorted_insertionSort leXY _).orderedInsert _ _
    · exact absurd hv (by simp)

/-- Every occurrence in a successful page result arose from one raw
adjacency-filtered hit via the loop body. -/
lemma processPage_mem {h : HotPdf} {n : Nat} {q : String} {v t s : Bool} :
    ∀ {occs out}, processPage h n q v t s occs = .ok out →
      ∀ oc ∈ out, ∃ raw ∈ occs, processOccurrence h n q v t s raw = .ok (some oc) := by
  intro occs
  induction occs with
  | nil =>
    intro out hp oc hoc
    unfold processPage at hp
    cases hp
    cases hoc
  | cons o os ih =>
    intro out hp oc hoc
    unfold processPage at hp
    split at hp
    · exact absurd hp (by simp)
    · rename_i res hres
      split at hp
      · exact absurd hp (by simp)
      · rename_i rest hrest
        cases res with
        | some cs =>
          simp only [Except.ok.injEq] at hp
          rw [← hp] at hoc
          rcases List.mem_cons.mp hoc with h1 | h1
          · exact ⟨o, List.mem_cons_self o os, by rw [hres, h1]⟩
          · rcases ih hrest oc h1 with ⟨raw, hr1, hr2⟩
            exact ⟨raw, List.mem_cons_of_mem o hr1, hr2⟩
        | none =>
          simp only [Except.ok.injEq] at hp
          rw [← hp] at hoc
          rcases ih hrest oc hoc with ⟨raw, hr1, hr2⟩
          exact ⟨raw, List.mem_cons_of_mem o hr1, hr2⟩

/-- Every entry of a successful multi-page search result is the processed
result of the adjacency-filtered raw hits of its page. -/
lemma searchPages_mem {h : HotPdf} {q : String} {v t s : Bool} :
    ∀ {ns : List Nat} {r}, searchPages h q v t s ns = .ok r →
      ∀ pr ∈ r,
        processPage h pr.1 q v t s
            (filter_adjacent_coords ((h.pages.getD pr.1 mmDefault).find_text q)) =
          .ok pr.2 := by
  intro ns
  induction ns with
  | nil =>
    intro r hr pr hpr
    unfold searchPages at hr
    cases hr
    cases hpr
  | cons n ns ih =>
    intro r hr pr hpr
    unfold searchPages at hr
    split at hr
    · exact absurd hr (by simp)
    · rename_i out hout
      split at hr
      · exact absurd hr (by simp)
      · rename_i rest hrest
        simp only [Except.ok.injEq] at hr
        rw [← hr] at hpr
        rcases List.mem_cons.mp hpr with h1 | h1
        · rw [h1]
          exact hout
        · exact ih hrest pr h1

/-- A successful multi-page search reports exactly the queried page numbers,
in order. -/
lemma searchPages_keys {h : HotPdf} {q : String} {v t s : Bool} :
    ∀ {ns : List Nat} {r}, searchPages h q v t s ns = .ok r →
      r.map Prod.fst = ns := by
  intro ns
  induction ns with
  | nil =>
    intro r hr
    unfold searchPages at hr
    cases hr
    rfl
  | cons n ns ih =>
    intro r hr
    unfold searchPages at hr
    split at hr
    · exact absurd hr (by simp)
    · split at hr
      · exact absurd hr (by simp)
      · rename_i rest hrest
        simp only [Except.ok.injEq] at hr
        rw [← hr, List.map_cons, ih hrest]

/-- A successful `find_text` call is a successful `searchPages` run over the
selected page keys. -/
lemma find_text_ok {h : HotPdf} {q : String} {pages : List Int} {v t s : Bool}
    {r : List (Nat × List (List HotCharacter))}
    (hr : h.find_text q pages v t s = .ok r) :
    searchPages h q v t s
      (if pages.isEmpty then List.range h.pages.length
       else dedupPages (pages.map Int.toNat)) = .ok r := by
  unfold HotPdf.find_text at hr
  split at hr
  · exact absurd hr (by simp)
  · simp only [] at hr
    exact hr

/-- The ordering on occurrences that the spec's sort invariant asserts:
non-decreasing in `(min-x, min-y)` of the character set. -/
def minXYLe (o1 o2 : List HotCharacter) : Prop :=
  (get_element_dimension o1).x0 < (get_element_dimension o2).x0 ∨
  ((get_element_dimension o1).x0 = (get_element_dimension o2).x0 ∧
    (get_element_dimension o1).y0 ≤ (get_element_dimension o2).y0)

instance (o1 o2 : List HotCharacter) : Decidable (minXYLe o1 o2) := by
  unfold minXYLe; exact inferInstance

/-- Claim C1: the spec says that with `take_span=true`, once promoted, two
occurrences resolving to the same span identifier are reported once.  The
code belies this: on a page whose single span "abab" contains the query "ab"
twice, `find_text` returns the same promoted span occurrence twice, because
`seen_span_ids` is re-created inside the occurrence loop (hotpdf.py line 165)
and the dedup membership test therefore always examines an empty list. -/
theorem c1_code_bug_eval :
    pdfC1.find_text "ab" [] true true true =
      .ok [(0, [spanC1.characters, spanC1.characters])] := by
  rfl

/-- Claim C2 (counterexample): with `sort=true`, the page document `pdfC2`
returns its two validated occurrences of "ab" in raw-hit order — the first at
min-x 50, the second at min-x 0 — so the returned occurrence list is NOT
non-decreasing in `(min-x, min-y)`. -/
theorem c2_counterexample :
    pdfC2.find_text "ab" [] true false true = .ok [(0, [[aC2, bC2], [cC2, dC2]])] ∧
    ¬ minXYLe [aC2, bC2] [cC2, dC2] := by
  constructor
  · rfl
  · decide

/-- Claim C2 (amended): with `sort=true`, the characters inside each returned
occurrence are in non-decreasing `(x, y)` order (the source sorts the
character list of every occurrence, hotpdf.py line 184); the occurrence list
itself keeps raw-hit order. -/
theorem c2_thm (h : HotPdf) (q : String) (pages : List Int) (v t : Bool)
    (r : List (Nat × List (List HotCharacter)))
    (hr : h.find_text q pages v t true = .ok r) :
    ∀ pr ∈ r, ∀ occ ∈ pr.2, List.Sorted leXY occ := by
  intro pr hpr occ hocc
  have hs := find_text_ok hr
  have hp := searchPages_mem hs pr hpr
  rcases processPage_mem hp occ hocc with ⟨raw, _, hpo⟩
  exact processOccurrence_sorted hpo

/-- Witness for claim C2's amended theorem at the concrete document `pdfC2`. -/
theorem c2_witness : List.Sorted leXY [aC2, bC2] :=
  c2_thm pdfC2 "ab" [] true false [(0, [[aC2, bC2], [cC2, dC2]])] rfl
    (0, [[aC2, bC2], [cC2, dC2]]) (List.mem_singleton.mpr rfl)
    [aC2, bC2] (List.mem_cons_self _ _)

/-- Claim C3 (counterexample): the adjacency-filtered occurrence of "ab" on
`pdfC3`'s page spans two distinct span identifiers (`s1` for `a`, `s2` for
`b`), so the claim says promotion is skipped and the raw occurrence is kept;
the code instead promotes to span `s1` (named by the first character alone)
and returns `[a, c]`, not the raw `[a, b]`. -/
theorem c3_counterexample :
    filter_adjacent_coords (mmC3.find_text "ab") = [[aC3, bC3]] ∧
    aC3.span_id ≠ bC3.span_id ∧
    pdfC3.find_text "ab" [] false true true = .ok [(0, [[aC3, cC3]])] ∧
    [aC3, cC3] ≠ [aC3, bC3] := by
  refine ⟨rfl, ?_, rfl, ?_⟩
  · decide
  · decide

/-- Claim C3 (amended): with `take_span=true`, promotion is decided by the
FIRST character alone: an occurrence whose first character carries a span
identifier that names a (non-empty) span in the page's span map is replaced
by that span's full character list, regardless of the span identifiers of its
remaining characters. -/
theorem c3_thm (h : HotPdf) (page_num : Nat) (q : String) (s : Bool)
    (c : HotCharacter) (cs : List HotCharacter) (text : String)
    (hok : h.extract_text (get_element_dimension (c :: cs)).x0
        (get_element_dimension (c :: cs)).y0 (get_element_dimension (c :: cs)).x1
        (get_element_dimension (c :: cs)).y1 (Int.ofNat page_num) = .ok text)
    (hval : strContains text q = true)
    (sp : Span) (hid : c.span_id ≠ "")
    (hlk : lookupSpan (h.pages.getD page_num mmDefault).span_map c.span_id = some sp)
    (d : HotCharacter) (ds : List HotCharacter) (hchars : sp.characters = d :: ds) :
    processOccurrence h page_num q true true s (c :: cs) =
      .ok (some (if s then List.insertionSort leXY sp.characters else sp.characters)) := by
  have hfull : h.extract_full_text_span (c :: cs) page_num = some (d :: ds) := by
    simp only [HotPdf.extract_full_text_span, hid, if_true, hlk, hchars]
    simp [hid]
  rw [hchars]
  unfold processOccurrence
  simp only []
  rw [hok]
  simp only [hval, Bool.not_true, Bool.or_false, if_true, hfull]
  simp

/-- Witness for claim C3's amended theorem: on `pdfW3`, the validated
occurrence `[a, b]` (with `a` in span `s1` and `b` in span `s2`) is promoted
to the full character list `[a, e]` of span `s1`. -/
theorem c3_witness :
    processOccurrence pdfW3 0 "ab" true true false [aW3, bW3] = .ok (some [aW3, eW3]) :=
  c3_thm pdfW3 0 "ab" false aW3 [bW3] "abde" rfl rfl ⟨"s1", [aW3, eW3]⟩
    (by decide) rfl aW3 [eW3] rfl

/-- Claim C4 (counterexample): the claim says a call with `first_page`
positive and `last_page = 0` (meant as "unbounded end") passes the range
check; the code rejects it, because `first_page > last_page` already fires
for `first_page = 1, last_page = 0`. -/
theorem c4_counterexample : check_page_range 1 0 = .error .invalidPageRange := rfl

/-- Claim C4 (amended): the range check fails with the invalid-range error
exactly when `first_page > last_page` or either page is negative; in
particular a call with positive `first_page` and `last_page = 0` FAILS the
range check — `0` is not treated as "unbounded" by the check. -/
theorem c4_thm (first_page last_page : Int) :
    (check_page_range first_page last_page = .error .invalidPageRange ↔
      (first_page > last_page ∨ first_page < 0 ∨ last_page < 0)) ∧
    (0 < first_page → check_page_range first_page 0 = .error .invalidPageRange) := by
  constructor
  · constructor
    · intro h
      by_contra hc
      unfold check_page_range at h
      rw [if_neg hc] at h
      exact Except.noConfusion h
    · intro hc
      unfold check_page_range
      rw [if_pos hc]
  · intro hp
    unfold check_page_range
    rw [if_pos (Or.inl hp)]

/-- Witness for claim C4's amended theorem: `first_page = 2, last_page = 0`
fails the range check. -/
theorem c4_witness : check_page_range 2 0 = .error .invalidPageRange :=
  (c4_thm 2 0).2 (by decide)

/-- Claim C5 (counterexample): on `pdfC5`, whose one page holds a character
at `x = 11` just beyond the page width 10, `extract_page_text` returns `""`
while `extract_text` over the full page extents returns `"q"` — the two are
not equivalent, because `extract_text` pads the trailing edge by the
extraction tolerance and `extract_page_text` does not. -/
theorem c5_counterexample :
    pdfC5.extract_page_text 0 = .ok "" ∧
    pdfC5.extract_text 0 0 10 10 0 = .ok "q" ∧
    mmC5.width = 10 ∧ mmC5.height = 10 ∧
    pdfC5.extract_page_text 0 ≠ pdfC5.extract_text 0 0 10 10 0 := by
  refine ⟨rfl, rfl, rfl, rfl, ?_⟩
  decide

/-- Claim C5 (amended): `extract_page_text(page)` equals `extract_text` over
the full page extents whenever no character of the page lies beyond the page
width (the extraction-tolerance padding that only `extract_text` applies then
selects no extra characters); `pdfC5` shows the equality can fail otherwise. -/
theorem c5_thm (h : HotPdf) (page : Int) (mm : MemoryMap)
    (hmm : h.pages.getD page.toNat mmDefault = mm)
    (hp0 : 0 ≤ page) (hplen : page < (h.pages.length : Int))
    (htol : 0 ≤ h.extraction_tolerance)
    (hw : 0 ≤ mm.width) (hh : 0 ≤ mm.height)
    (hchars : ∀ c ∈ mm.chars, c.x ≤ mm.width) :
    h.extract_page_text page = h.extract_text 0 0 mm.width mm.height page := by
  have hcc : check_coordinates 0 0 mm.width mm.height = .ok () := by
    unfold check_coordinates
    rw [if_neg]
    push_neg
    exact ⟨le_refl 0, hw, le_refl 0, hh⟩
  have hpn : h.check_page_number page = .ok () := by
    unfold HotPdf.check_page_number
    rw [if_neg]
    push_neg
    exact ⟨hp0, hplen⟩
  unfold HotPdf.extract_page_text HotPdf.extract_text
  simp only [hcc, hpn, hmm]
  unfold MemoryMap.extract_text_from_bbox
  have hfilter :
      mm.chars.filter
          (fun c => decide (0 ≤ c.x ∧ c.x ≤ mm.width ∧ 0 ≤ c.y ∧ c.y ≤ mm.height)) =
        mm.chars.filter
          (fun c => decide (0 ≤ c.x ∧ c.x ≤ mm.width + h.extraction_tolerance ∧
            0 ≤ c.y ∧ c.y ≤ mm.height)) := by
    apply List.filter_congr
    intro c hc
    rw [decide_eq_decide]
    constructor
    · rintro ⟨h1, h2, h3, h4⟩
      exact ⟨h1, le_trans h2 (by linarith), h3, h4⟩
    · rintro ⟨h1, _, h3, h4⟩
      exact ⟨h1, hchars c hc, h3, h4⟩
  simp only []
  rw [hfilter]

/-- Witness for claim C5's amended theorem at the concrete document `pdfW5`,
all of whose characters lie inside the page extents. -/
theorem c5_witness : pdfW5.extract_page_text 0 = pdfW5.extract_text 0 0 10 10 0 :=
  c5_thm pdfW5 0 mmW5 rfl (by decide) (by decide) (by decide) (by decide)
    (by decide) (by decide)

/-- Claim C6 (counterexample): with `validate=true` and `take_span=true`, the
document `pdfC6` returns the promoted occurrence `[a, b, w]` (span `s1`), but
re-extracting the text of THAT occurrence's bounding box yields "azwb" — the
stray character `z` sits inside the promoted box — and the query "ab" is not
a substring of it.  Validation only checked the raw pre-promotion box. -/
theorem c6_counterexample :
    pdfC6.find_text "ab" [] true true true = .ok [(0, [[aC6, bC6, wC6]])] ∧
    get_element_dimension [aC6, bC6, wC6] = ⟨0, 10, 25, 12⟩ ∧
    pdfC6.extract_text 0 10 25 12 0 = .ok "azwb" ∧
    strContains "azwb" "ab" = false := ⟨rfl, rfl, rfl, rfl⟩

/-- Claim C6 (amended): with `validate=true` and `take_span=false`, every
returned occurrence re-extracts (over its own bounding box, tolerance-padded
on the trailing edge) to a text containing the query; with `take_span=true`
the guarantee holds only for the raw pre-promotion bounding box, as `pdfC6`
shows. -/
theorem c6_thm (h : HotPdf) (q : String) (pages : List Int) (s : Bool)
    (r : List (Nat × List (List HotCharacter)))
    (hr : h.find_text q pages true false s = .ok r) :
    ∀ pr ∈ r, ∀ occ ∈ pr.2, ∃ text,
      h.extract_text (get_element_dimension occ).x0 (get_element_dimension occ).y0
        (get_element_dimension occ).x1 (get_element_dimension occ).y1 (Int.ofNat pr.1) =
        .ok text ∧ strContains text q = true := by
  intro pr hpr occ hocc
  have hs := find_text_ok hr
  have hp := searchPages_mem hs pr hpr
  rcases processPage_mem hp occ hocc with ⟨raw, _, hpo⟩
  rcases processOccurrence_validate hpo with ⟨⟨text, ht, hsub⟩, hshape⟩
  have hged : get_element_dimension occ = get_element_dimension raw := by
    rcases hshape with he | he
    · rw [he]
    · rw [he, ged_insertionSort]
  rw [hged]
  exact ⟨text, ht, hsub⟩

/-- Witness for claim C6's amended theorem at the concrete document `pdfW6`. -/
theorem c6_witness :
    ∃ text, pdfW6.extract_text (get_element_dimension [aW6, bW6]).x0
        (get_element_dimension [aW6, bW6]).y0 (get_element_dimension [aW6, bW6]).x1
        (get_element_dimension [aW6, bW6]).y1 (Int.ofNat 0) = .ok text ∧
      strContains text "ab" = true :=
  c6_thm pdfW6 "ab" [] true [(0, [[aW6, bW6]])] rfl (0, [[aW6, bW6]])
    (List.mem_singleton.mpr rfl) [aW6, bW6] (List.mem_singleton.mpr rfl)

/-- A page list containing an out-of-range page number makes the up-front
check loop fail with the invalid-page-number error. -/
lemma checkPages_error {h : HotPdf} :
    ∀ {pages : List Int}, (∃ p ∈ pages, p < 0 ∨ (h.pages.length : Int) ≤ p) →
      checkPages h pages = .error .invalidPageNumber := by
  intro pages
  induction pages with
  | nil => rintro ⟨p, hp, _⟩; cases hp
  | cons a as ih =>
    rintro ⟨p, hp, hbad⟩
    unfold checkPages
    by_cases ha : a < 0 ∨ (h.pages.length : Int) ≤ a
    · have : h.check_page_number a = .error .invalidPageNumber := by
        unfold HotPdf.check_page_number
        rw [if_pos ha]
      simp only [this]
    · have hok : h.check_page_number a = .ok () := by
        unfold HotPdf.check_page_number
        rw [if_neg ha]
      rcases List.mem_cons.mp hp with he | hm
      · subst he
        exact absurd hbad ha
      · simp only [hok]
        exact ih ⟨p, hm, hbad⟩

/-- Claim C7: when `pages` is empty every loaded page is searched (a
successful result carries exactly the page numbers `0..len-1` in order), and
when any requested page number is out of range the call fails with the
invalid-page-number error — the checks run before any per-page search. -/
theorem c7_thm (h : HotPdf) (q : String) (v t s : Bool) :
    (∀ r, h.find_text q [] v t s = .ok r → r.map Prod.fst = List.range h.pages.length) ∧
    (∀ pages : List Int, (∃ p ∈ pages, p < 0 ∨ (h.pages.length : Int) ≤ p) →
      h.find_text q pages v t s = .error .invalidPageNumber) := by
  constructor
  · intro r hr
    have hs := find_text_ok hr
    simp only [List.isEmpty_nil, if_true] at hs
    exact searchPages_keys hs
  · intro pages hex
    unfold HotPdf.find_text
    simp only [checkPages_error hex]

/-- Witness for claim C7 at concrete inputs: the empty document searches all
(zero) pages on an empty `pages` list, and fails on the out-of-range page 5. -/
theorem c7_witness :
    emptyHotPdf.find_text "ab" [] true false true = .ok [] ∧
    List.map Prod.fst ([] : List (Nat × List (List HotCharacter))) =
      List.range emptyHotPdf.pages.length ∧
    emptyHotPdf.find_text "ab" [5] true false true = .error .invalidPageNumber :=
  ⟨rfl, (c7_thm emptyHotPdf "ab" true false true).1 [] rfl,
    (c7_thm emptyHotPdf "ab" true false true).2 [5]
      ⟨5, List.mem_singleton.mpr rfl, Or.inr (by decide)⟩⟩

/-- Claim C8: every bounding-box query API — `extract_text`, `extract_spans`
and `extract_spans_text` — fails with the invalid-coordinates error whenever
any of the four coordinates is negative; the coordinate check runs first. -/
theorem c8_thm (h : HotPdf) (x0 y0 x1 y1 page : Int)
    (hneg : x0 < 0 ∨ x1 < 0 ∨ y0 < 0 ∨ y1 < 0) :
    h.extract_text x0 y0 x1 y1 page = .error .invalidCoordinates ∧
    h.extract_spans x0 y0 x1 y1 page = .error .invalidCoordinates ∧
    h.extract_spans_text x0 y0 x1 y1 page = .error .invalidCoordinates := by
  have hcc : check_coordinates x0 y0 x1 y1 = .error .invalidCoordinates := by
    unfold check_coordinates
    rw [if_pos hneg]
  refine ⟨?_, ?_, ?_⟩
  · unfold HotPdf.extract_text
    simp only [hcc]
  · unfold HotPdf.extract_spans
    simp only [hcc]
  · unfold HotPdf.extract_spans_text
    simp only [hcc]

/-- Witness for claim C8: `extract_text(-1, 0, 10, 10, 0)` (and the span
variants) fail with the invalid-coordinates error. -/
theorem c8_witness :
    emptyHotPdf.extract_text (-1) 0 10 10 0 = .error .invalidCoordinates ∧
    emptyHotPdf.extract_spans (-1) 0 10 10 0 = .error .invalidCoordinates ∧
    emptyHotPdf.extract_spans_text (-1) 0 10 10 0 = .error .invalidCoordinates :=
  c8_thm emptyHotPdf (-1) 0 10 10 0 (Or.inl (by decide))

/-- Claim C9: on any successful call, `extract_spans_text` returns exactly
the concatenation of the texts of the spans `extract_spans` returns, in the
order `extract_spans` returns them. -/
theorem c9_thm (h : HotPdf) (x0 y0 x1 y1 page : Int) (spans : List Span)
    (hs : h.extract_spans x0 y0 x1 y1 page = .ok spans) :
    h.extract_spans_text x0 y0 x1 y1 page =
      .ok (String.join (spans.map Span.to_text)) := by
  by_cases hC : (x0 < 0 ∨ x1 < 0 ∨ y0 < 0 ∨ y1 < 0)
  · have hcc : check_coordinates x0 y0 x1 y1 = .error .invalidCoordinates := by
      unfold check_coordinates; rw [if_pos hC]
    unfold HotPdf.extract_spans at hs
    simp only [hcc] at hs
    exact Except.noConfusion hs
  · have hcc : check_coordinates x0 y0 x1 y1 = .ok () := by
      unfold check_coordinates; rw [if_neg hC]
    by_cases hP : (page < 0 ∨ (h.pages.length : Int) ≤ page)
    · have hpn : h.check_page_number page = .error .invalidPageNumber := by
        unfold HotPdf.check_page_number; rw [if_pos hP]
      unfold HotPdf.extract_spans at hs
      simp only [hcc, hpn] at hs
      exact Except.noConfusion hs
    · have hpn : h.check_page_number page = .ok () := by
        unfold HotPdf.check_page_number; rw [if_neg hP]
      unfold HotPdf.extract_spans at hs
      simp only [hcc, hpn, Except.ok.injEq] at hs
      unfold HotPdf.extract_spans_text HotPdf.extract_spans
      simp only [hcc, hpn, hs]

/-- Witness for claim C9 at the concrete document `pdfC9`. -/
theorem c9_witness :
    pdfC9.extract_spans_text 0 0 10 10 0 =
      .ok (String.join ([spanC9].map Span.to_text)) :=
  c9_thm pdfC9 0 0 10 10 0 [spanC9] rfl

/-- Claim C10: a `HotPdf` constructed without a pdf file has zero pages, and
every page-indexed operation — with coordinates that pass the coordinate
check, which runs first — fails with the invalid-page-number error for every
page argument, including page 0, since no page number satisfies
`0 <= page < 0`. -/
theorem c10_thm (page x0 y0 x1 y1 : Int)
    (hc : ¬(x0 < 0 ∨ x1 < 0 ∨ y0 < 0 ∨ y1 < 0))
    (q : String) (v t s : Bool) (ps : List Int) :
    emptyHotPdf.extract_text x0 y0 x1 y1 page = .error .invalidPageNumber ∧
    emptyHotPdf.extract_page_text page = .error .invalidPageNumber ∧
    emptyHotPdf.extract_spans x0 y0 x1 y1 page = .error .invalidPageNumber ∧
    emptyHotPdf.extract_spans_text x0 y0 x1 y1 page = .error .invalidPageNumber ∧
    emptyHotPdf.find_text q (page :: ps) v t s = .error .invalidPageNumber := by
  have hpn : emptyHotPdf.check_page_number page = .error .invalidPageNumber := by
    unfold HotPdf.check_page_number
    rw [if_pos]
    rcases lt_or_le page 0 with hlt | hge
    · exact Or.inl hlt
    · exact Or.inr (by simpa using hge)
  have hcc : check_coordinates x0 y0 x1 y1 = .ok () := by
    unfold check_coordinates
    rw [if_neg hc]
  refine ⟨?_, ?_, ?_, ?_, ?_⟩
  · unfold HotPdf.extract_text
    simp only [hcc, hpn]
  · unfold HotPdf.extract_page_text
    simp only [hpn]
  · unfold HotPdf.extract_spans
    simp only [hcc, hpn]
  · unfold HotPdf.extract_spans_text
    simp only [hcc, hpn]
  · have hcp : checkPages emptyHotPdf (page :: ps) = .error .invalidPageNumber := by
      unfold checkPages
      simp only [hpn]
    unfold HotPdf.find_text
    simp only [hcp]

/-- Witness for claim C10 at page 0 with in-range coordinates. -/
theorem c10_witness :
    emptyHotPdf.extract_text 0 0 0 0 0 = .error .invalidPageNumber ∧
    emptyHotPdf.extract_page_text 0 = .error .invalidPageNumber ∧
    emptyHotPdf.extract_spans 0 0 0 0 0 = .error .invalidPageNumber ∧
    emptyHotPdf.extract_spans_text 0 0 0 0 0 = .error .invalidPageNumber ∧
    emptyHotPdf.find_text "a" ((0 : Int) :: []) true true true = .error .invalidPageNumber :=
  c10_thm 0 0 0 0 0 (by decide) "a" true true true []
